import Mathlib

/-!
Verification development for the Redux-Toolkit shopping-cart repository.

The repository's state logic lives in its cart slice; the store holds a
`CartState` with an ordered list of line items, the derived aggregates
`amount` (sum of quantities) and `total` (sum of price times quantity),
and an `isLoading` flag.  The slice file itself is not part of the
checked-in sources here (only the README documents it), so the engine
operations below are modelled from the specification text; the
`CartContainer` component and the `getCartItems` thunk are embedded from
the source files directly.

Prices and totals are embedded as rationals (the engine keeps
full-precision numeric values); quantities are naturals.
-/

/-- One purchasable cart entry: identifier, display title, unit price,
quantity (the source calls the quantity field `amount`), image reference. -/
structure LineItem where
  id : Nat
  title : String
  price : ℚ
  amount : Nat
  img : String
deriving DecidableEq, Repr

/-- The aggregate cart state owned by the engine: the ordered item
sequence, the derived `amount` and `total`, and the loading flag. -/
structure CartState where
  cartItems : List LineItem
  amount : Nat
  total : ℚ
  isLoading : Bool
deriving DecidableEq, Repr

/-- Sum of the quantities of a list of line items. -/
def sumAmount (items : List LineItem) : Nat :=
  (items.map LineItem.amount).sum

/-- Sum of unit price times quantity over a list of line items. -/
def sumTotal (items : List LineItem) : ℚ :=
  (items.map (fun i => i.price * (i.amount : ℚ))).sum

/-- Modelled from the spec: the aggregate recomputation run after every
structural mutation (`calculateTotals` in the slice, which is not under
the checked-in sources): `amount = sum(quantity over items)`,
`total = sum(price * quantity over items)`. -/
def calculateTotals (s : CartState) : CartState :=
  { s with amount := sumAmount s.cartItems, total := sumTotal s.cartItems }

/-- Modelled from the spec: `load(items)` replaces the line-item sequence
wholesale, recomputes `amount` and `total`, and sets `isLoading` to false
(the slice's fulfilled-fetch handler, not under the checked-in sources). -/
def load (items : List LineItem) (s : CartState) : CartState :=
  calculateTotals { s with cartItems := items, isLoading := false }

/-- Modelled from the spec: `beginLoad()` sets `isLoading` to true and
does not alter items (the slice's pending-fetch handler). -/
def beginLoad (s : CartState) : CartState :=
  { s with isLoading := true }

/-- Modelled from the spec: `failLoad()` sets `isLoading` to false,
leaving existing items untouched (the slice's rejected-fetch handler). -/
def failLoad (s : CartState) : CartState :=
  { s with isLoading := false }

/-- Item-list effect of `addItem`: merge the incoming quantity into an
existing item with the same identifier, otherwise append. -/
def addItemItems (item : LineItem) (l : List LineItem) : List LineItem :=
  if l.any (fun i => i.id = item.id) then
    l.map (fun i =>
      if i.id = item.id then { i with amount := i.amount + item.amount } else i)
  else
    l ++ [item]

/-- Item-list effect of `removeItem`: keep exactly the items whose
identifier differs from `id`. -/
def removeItems (id : Nat) (l : List LineItem) : List LineItem :=
  l.filter (fun i => i.id ≠ id)

/-- Item-list effect of `increase`: one more unit of the item whose
identifier is `id`. -/
def increaseItems (id : Nat) (l : List LineItem) : List LineItem :=
  l.map (fun i => if i.id = id then { i with amount := i.amount + 1 } else i)

/-- Item-list effect of `decrease`: one unit fewer of the item whose
identifier is `id` when its quantity exceeds one; drop the item when its
quantity is one. -/
def decreaseItems (id : Nat) (l : List LineItem) : List LineItem :=
  l.filterMap (fun i =>
    if i.id = id then
      (if 1 < i.amount then some { i with amount := i.amount - 1 } else none)
    else some i)

/-- Modelled from the spec: `addItem(item)` merges the incoming quantity
into an existing item with the same identifier (the spec's recommended
policy for the otherwise-undefined duplicate case) and otherwise appends
the item; aggregates are recomputed. -/
def addItem (item : LineItem) (s : CartState) : CartState :=
  calculateTotals { s with cartItems := addItemItems item s.cartItems }

/-- Modelled from the spec: `removeItem(id)` deletes the item whose
identifier equals `id` if present, a no-op if absent; aggregates are
recomputed. -/
def removeItem (id : Nat) (s : CartState) : CartState :=
  calculateTotals { s with cartItems := removeItems id s.cartItems }

/-- Modelled from the spec: `increase(id)` increments the quantity of the
item with identifier `id` by one if present, a no-op if absent;
aggregates are recomputed. -/
def increase (id : Nat) (s : CartState) : CartState :=
  calculateTotals { s with cartItems := increaseItems id s.cartItems }

/-- Modelled from the spec: `decrease(id)` decrements the quantity of the
item with identifier `id` by one when that quantity exceeds one, removes
the item entirely when its quantity is one, and is a no-op if `id` is
absent; aggregates are recomputed. -/
def decrease (id : Nat) (s : CartState) : CartState :=
  calculateTotals { s with cartItems := decreaseItems id s.cartItems }

/-- Modelled from the spec: `clearCart()` empties the item sequence;
`amount` and `total` become zero and `isLoading` is unaffected. -/
def clearCart (s : CartState) : CartState :=
  calculateTotals { s with cartItems := [] }

/-- The engine's operation alphabet. -/
inductive CartOp where
  | load (items : List LineItem)
  | beginLoad
  | failLoad
  | addItem (item : LineItem)
  | removeItem (id : Nat)
  | increase (id : Nat)
  | decrease (id : Nat)
  | clearCart
deriving DecidableEq, Repr

/-- Interpretation of one engine operation on a cart state. -/
def applyOp : CartOp → CartState → CartState
  | .load items => load items
  | .beginLoad => beginLoad
  | .failLoad => failLoad
  | .addItem item => addItem item
  | .removeItem id => removeItem id
  | .increase id => increase id
  | .decrease id => decrease id
  | .clearCart => clearCart

/-- Running a sequence of engine operations, first operation first. -/
def runOps : List CartOp → CartState → CartState
  | [], s => s
  | op :: ops, s => runOps ops (applyOp op s)

/-- The structural mutations: every operation except the two
loading-flag transitions. -/
def CartOp.isStructural : CartOp → Bool
  | .beginLoad => false
  | .failLoad => false
  | _ => true

/-- The aggregate invariant: `amount` is the sum of quantities and
`total` the sum of price times quantity over the current items. -/
def cartInv (s : CartState) : Prop :=
  s.amount = sumAmount s.cartItems ∧ s.total = sumTotal s.cartItems

instance (s : CartState) : Decidable (cartInv s) := by
  unfold cartInv; infer_instance

/-- Well-formedness of one line item: non-negative price and positive
integer quantity. -/
def itemWF (i : LineItem) : Prop :=
  0 ≤ i.price ∧ 1 ≤ i.amount

instance (i : LineItem) : Decidable (itemWF i) := by
  unfold itemWF; infer_instance

/-- Well-formedness of an item list: identifiers are pairwise distinct
and every item is well-formed. -/
def itemsWF (l : List LineItem) : Prop :=
  (l.map LineItem.id).Nodup ∧ ∀ i ∈ l, itemWF i

instance (l : List LineItem) : Decidable (itemsWF l) := by
  unfold itemsWF; infer_instance

/-- Well-formedness constraints on the argument carried by an operation:
a loaded list must itself be well-formed, an added item must be
well-formed; the remaining operations carry no constrained data. -/
def opWF : CartOp → Prop
  | .load items => itemsWF items
  | .addItem item => itemWF item
  | _ => True

/-- The view produced by the `CartContainer` component: either the
empty-bag header, or the bag with the list of rendered item entries and
the numeric value interpolated into the total line. -/
structure CartView where
  isEmptyBag : Bool
  items : List LineItem
  shownTotal : Option ℚ
deriving DecidableEq, Repr

/-- Embedded from `src/src/components/CartContainer.js`: when the store's
`amount` is below one the component renders the empty-bag header;
otherwise it maps the module-level `cartItems` import (the static
fixture, first argument) into `CartItem` entries — not the store's item
list — and interpolates the store's raw `total` into the total line. -/
def renderCartContainer (cartItems : List LineItem) (cart : CartState) : CartView :=
  if cart.amount < 1 then
    { isEmptyBag := true, items := [], shownTotal := none }
  else
    { isEmptyBag := false, items := cartItems, shownTotal := some cart.total }

/-- Embedded from `src/src/components/CartContainer.js` (the total line
interpolates the raw number: `{total}xaf`): JavaScript's default number
formatting, modelled on the non-negative integer totals, where it prints
the plain integer with no decimal point; `none` outside the modelled
range. -/
def renderedTotalText (t : ℚ) : Option String :=
  if 0 ≤ t.num ∧ t.den = 1 then some (toString t.num.toNat ++ "xaf") else none

/-- Modelled from the spec: the documented presentation formats the total
with `toFixed(2)` — exactly two decimal places — so a non-negative
integer total `n` renders as `n.00`; `none` outside the modelled range. -/
def twoDecimalTotalText (t : ℚ) : Option String :=
  if 0 ≤ t.num ∧ t.den = 1 then some (toString t.num.toNat ++ ".00xaf") else none

/-- An action another slice exposes and the thunk may dispatch. -/
inductive SliceAction where
  | openModal
deriving DecidableEq, Repr

/-- One observable step of the `getCartItems` thunk: a dispatch into the
store, fulfilment with the response data, or rejection with a value. -/
inductive ThunkStep where
  | dispatched (a : SliceAction)
  | fulfilled (data : List LineItem)
  | rejectedWith (value : String)
deriving DecidableEq, Repr

/-- Whether a thunk step is a dispatch into the store. -/
def ThunkStep.isDispatch : ThunkStep → Bool
  | .dispatched _ => true
  | _ => false

/-- Embedded from the `getCartItems` thunk quoted in `src/README.md`: the
argument is the outcome of the awaited request; on success the thunk
dispatches `openModal()` and then returns `resp.data` (fulfilment), and
on a caught error it rejects with the value `"something went wrong"`.
The result is the ordered trace of observable steps. -/
def getCartItems (resp : Except String (List LineItem)) : List ThunkStep :=
  match resp with
  | .ok d => [.dispatched .openModal, .fulfilled d]
  | .error _ => [.rejectedWith "something went wrong"]

/-! ### Helper lemmas -/

theorem cartInv_calculateTotals (s : CartState) : cartInv (calculateTotals s) :=
  ⟨rfl, rfl⟩

theorem calculateTotals_of_cartInv {s : CartState} (h : cartInv s) :
    calculateTotals s = s := by
  obtain ⟨h1, h2⟩ := h
  unfold calculateTotals
  rw [← h1, ← h2]

theorem removeItems_of_absent {id : Nat} {l : List LineItem}
    (h : ∀ i ∈ l, ¬ i.id = id) : removeItems id l = l := by
  unfold removeItems
  apply List.filter_eq_self.mpr
  intro a ha
  simpa using h a ha

theorem increaseItems_of_absent {id : Nat} {l : List LineItem}
    (h : ∀ i ∈ l, ¬ i.id = id) : increaseItems id l = l := by
  unfold increaseItems
  have hc : ∀ i ∈ l, (if i.id = id then { i with amount := i.amount + 1 } else i) = i := by
    intro i hi
    rw [if_neg (h i hi)]
  simpa using List.map_congr_left hc

theorem decreaseItems_cons_ne {id : Nat} {a : LineItem} {t : List LineItem}
    (ha : ¬ a.id = id) : decreaseItems id (a :: t) = a :: decreaseItems id t := by
  unfold decreaseItems
  simp [List.filterMap_cons, ha]

theorem decreaseItems_cons_le {id : Nat} {a : LineItem} {t : List LineItem}
    (ha : a.id = id) (h1 : ¬ 1 < a.amount) :
    decreaseItems id (a :: t) = decreaseItems id t := by
  unfold decreaseItems
  simp [List.filterMap_cons, ha, h1]

theorem decreaseItems_cons_gt {id : Nat} {a : LineItem} {t : List LineItem}
    (ha : a.id = id) (h1 : 1 < a.amount) :
    decreaseItems id (a :: t) = { a with amount := a.amount - 1 } :: decreaseItems id t := by
  unfold decreaseItems
  simp [List.filterMap_cons, ha, h1]

theorem decreaseItems_of_absent {id : Nat} {l : List LineItem}
    (h : ∀ i ∈ l, ¬ i.id = id) : decreaseItems id l = l := by
  induction l with
  | nil => rfl
  | cons a t ih =>
    rw [decreaseItems_cons_ne (h a (List.mem_cons_self a t))]
    rw [ih (fun i hi => h i (List.mem_cons_of_mem a hi))]

theorem absent_of_nodup_cons {id : Nat} {a : LineItem} {t : List LineItem}
    (hnd : ((a :: t).map LineItem.id).Nodup) (ha : a.id = id) :
    ∀ i ∈ t, ¬ i.id = id := by
  simp only [List.map_cons, List.nodup_cons] at hnd
  intro i hi hiid
  apply hnd.1
  rw [ha]
  exact List.mem_map.mpr ⟨i, hi, hiid⟩

theorem decreaseItems_eq_removeItems {id : Nat} {l : List LineItem}
    (hnd : (l.map LineItem.id).Nodup)
    (h : ∃ i ∈ l, i.id = id ∧ i.amount = 1) :
    decreaseItems id l = removeItems id l := by
  induction l with
  | nil => simp at h
  | cons a t ih =>
    by_cases ha : a.id = id
    · have htne : ∀ i ∈ t, ¬ i.id = id := absent_of_nodup_cons hnd ha
      rw [decreaseItems_cons_le ha ?hle]
      case hle =>
        obtain ⟨i, hi, hiid, hia⟩ := h
        rcases List.mem_cons.mp hi with rfl | hit
        · omega
        · exact absurd hiid (htne i hit)
      have hrm : removeItems id (a :: t) = removeItems id t := by
        unfold removeItems
        simp [List.filter_cons, ha]
      rw [hrm, decreaseItems_of_absent htne, removeItems_of_absent htne]
  
    · rw [decreaseItems_cons_ne ha]
      have hrm : removeItems id (a :: t) = a :: removeItems id t := by
        unfold removeItems
        simp [List.filter_cons, ha]
      rw [hrm]
      have hnd2 : (t.map LineItem.id).Nodup := by
        simp only [List.map_cons, List.nodup_cons] at hnd
        exact hnd.2
      obtain ⟨i, hi, hiid, hia⟩ := h
      rcases List.mem_cons.mp hi with rfl | hit
      · exact absurd hiid ha
      · rw [ih hnd2 ⟨i, hit, hiid, hia⟩]

theorem decreaseItems_eq_map {id : Nat} {l : List LineItem}
    (hnd : (l.map LineItem.id).Nodup)
    (h : ∃ i ∈ l, i.id = id ∧ 1 < i.amount) :
    decreaseItems id l =
      l.map (fun j => if j.id = id then { j with amount := j.amount - 1 } else j) := by
  induction l with
  | nil => simp at h
  | cons a t ih =>
    by_cases ha : a.id = id
    · have htne : ∀ i ∈ t, ¬ i.id = id := absent_of_nodup_cons hnd ha
      have hgt : 1 < a.amount := by
        obtain ⟨i, hi, hiid, hia⟩ := h
        rcases List.mem_cons.mp hi with rfl | hit
        · exact hia
        · exact absurd hiid (htne i hit)
      rw [decreaseItems_cons_gt ha hgt, List.map_cons, if_pos ha]
      rw [decreaseItems_of_absent htne]
      have hmap : ∀ j ∈ t,
          (if j.id = id then { j with amount := j.amount - 1 } else j) = j := by
        intro j hj
        rw [if_neg (htne j hj)]
      rw [show t.map (fun j => if j.id = id then { j with amount := j.amount - 1 } else j) = t
        from by simpa using List.map_congr_left hmap]
    · rw [decreaseItems_cons_ne ha, List.map_cons, if_neg ha]
      have hnd2 : (t.map LineItem.id).Nodup := by
        simp only [List.map_cons, List.nodup_cons] at hnd
        exact hnd.2
      obtain ⟨i, hi, hiid, hia⟩ := h
      rcases List.mem_cons.mp hi with rfl | hit
      · exact absurd hiid ha
      · rw [ih hnd2 ⟨i, hit, hiid, hia⟩]

theorem amount_pos_of_mem_decreaseItems {id : Nat} {l : List LineItem}
    (hpos : ∀ i ∈ l, 1 ≤ i.amount) :
    ∀ j ∈ decreaseItems id l, 1 ≤ j.amount := by
  intro j hj
  unfold decreaseItems at hj
  obtain ⟨a, ha, hfa⟩ := List.mem_filterMap.mp hj
  by_cases hid : a.id = id
  · rw [if_pos hid] at hfa
    by_cases h1 : 1 < a.amount
    · rw [if_pos h1] at hfa
      obtain rfl := Option.some.inj hfa
      simp only []
      omega
    · rw [if_neg h1] at hfa
      exact absurd hfa (Option.noConfusion)
  · rw [if_neg hid] at hfa
    obtain rfl := Option.some.inj hfa
    exact hpos a ha

theorem itemsWF_removeItems {id : Nat} {l : List LineItem}
    (h : itemsWF l) : itemsWF (removeItems id l) := by
  obtain ⟨hnd, hwf⟩ := h
  refine ⟨?_, ?_⟩
  · exact hnd.sublist ((List.filter_sublist l).map LineItem.id)
  · intro i hi
    exact hwf i (List.mem_of_mem_filter hi)

theorem itemsWF_increaseItems {id : Nat} {l : List LineItem}
    (h : itemsWF l) : itemsWF (increaseItems id l) := by
  obtain ⟨hnd, hwf⟩ := h
  refine ⟨?_, ?_⟩
  · unfold increaseItems
    rw [List.map_map]
    have hids : ∀ i ∈ l,
        (LineItem.id ∘ fun i => if i.id = id then { i with amount := i.amount + 1 } else i) i
          = LineItem.id i := by
      intro i _
      by_cases hc : i.id = id <;> simp [hc]
    rw [List.map_congr_left hids]
    exact hnd
  · intro i hi
    obtain ⟨j, hj, rfl⟩ := List.mem_map.mp hi
    obtain ⟨hp, hq⟩ := hwf j hj
    by_cases hc : j.id = id
    · rw [if_pos hc]
      exact ⟨hp, by simp only []; omega⟩
    · rw [if_neg hc]
      exact ⟨hp, hq⟩

theorem decreaseItems_map_id_sublist (id : Nat) (l : List LineItem) :
    ((decreaseItems id l).map LineItem.id).Sublist (l.map LineItem.id) := by
  induction l with
  | nil => simp [decreaseItems]
  | cons a t ih =>
    by_cases ha : a.id = id
    · by_cases h1 : 1 < a.amount
      · rw [decreaseItems_cons_gt ha h1, List.map_cons, List.map_cons]
        exact ih.cons₂ a.id
      · rw [decreaseItems_cons_le ha h1, List.map_cons]
        exact ih.cons a.id
    · rw [decreaseItems_cons_ne ha, List.map_cons, List.map_cons]
      exact ih.cons₂ a.id

theorem itemsWF_decreaseItems {id : Nat} {l : List LineItem}
    (h : itemsWF l) : itemsWF (decreaseItems id l) := by
  obtain ⟨hnd, hwf⟩ := h
  refine ⟨hnd.sublist (decreaseItems_map_id_sublist id l), ?_⟩
  intro j hj
  unfold decreaseItems at hj
  obtain ⟨a, ha, hfa⟩ := List.mem_filterMap.mp hj
  obtain ⟨hp, hq⟩ := hwf a ha
  by_cases hid : a.id = id
  · rw [if_pos hid] at hfa
    by_cases h1 : 1 < a.amount
    · rw [if_pos h1] at hfa
      obtain rfl := Option.some.inj hfa
      exact ⟨hp, by simp only []; omega⟩
    · rw [if_neg h1] at hfa
      exact absurd hfa (Option.noConfusion)
  · rw [if_neg hid] at hfa
    obtain rfl := Option.some.inj hfa
    exact ⟨hp, hq⟩

theorem itemsWF_addItemItems {item : LineItem} {l : List LineItem}
    (hit : itemWF item) (h : itemsWF l) : itemsWF (addItemItems item l) := by
  obtain ⟨hnd, hwf⟩ := h
  unfold addItemItems
  by_cases hc : l.any (fun i => i.id = item.id) = true
  · rw [if_pos hc]
    refine ⟨?_, ?_⟩
    · rw [List.map_map]
      have hids : ∀ i ∈ l,
          (LineItem.id ∘ fun i =>
            if i.id = item.id then { i with amount := i.amount + item.amount } else i) i
            = LineItem.id i := by
        intro i _
        by_cases hd : i.id = item.id <;> simp [hd]
      rw [List.map_congr_left hids]
      exact hnd
    · intro i hi
      obtain ⟨j, hj, rfl⟩ := List.mem_map.mp hi
      obtain ⟨hp, hq⟩ := hwf j hj
      by_cases hd : j.id = item.id
      · rw [if_pos hd]
        exact ⟨hp, by simp only []; omega⟩
      · rw [if_neg hd]
        exact ⟨hp, hq⟩
  · rw [if_neg hc]
    have habs : ∀ i ∈ l, ¬ i.id = item.id := by
      intro i hi hii
      exact hc (List.any_eq_true.mpr ⟨i, hi, by simpa using hii⟩)
    refine ⟨?_, ?_⟩
    · rw [List.map_append]
      simp only [List.map_cons, List.map_nil]
      rw [List.nodup_append]
      refine ⟨hnd, List.nodup_singleton _, ?_⟩
      intro x hx hx1
      obtain ⟨j, hj, rfl⟩ := List.mem_map.mp hx
      rcases List.mem_singleton.mp hx1 with heq
      exact habs j hj heq
    · intro i hi
      rcases List.mem_append.mp hi with hil | hi2
      · exact hwf i hil
      · rw [List.mem_singleton.mp hi2]
        exact hit

/-! ### Claim theorems -/

/-- Claim C1: after every structural cart operation (load, addItem,
removeItem, increase, decrease, clearCart) the state satisfies the
aggregate invariant — `amount` is the sum of quantities and `total` the
sum of price times quantity over the current items — and the invariant
holds in every state reachable by any sequence of engine operations from
an invariant state. -/
theorem cart_aggregate_invariant :
    (∀ (s : CartState) (op : CartOp), op.isStructural = true → cartInv (applyOp op s)) ∧
    (∀ (s : CartState) (ops : List CartOp), cartInv s → cartInv (runOps ops s)) := by
  have hstep : ∀ (s : CartState) (op : CartOp), cartInv s → cartInv (applyOp op s) := by
    intro s op hs
    cases op <;> first
      | exact cartInv_calculateTotals _
      | exact hs
  refine ⟨?_, ?_⟩
  · intro s op hop
    cases op <;> first
      | exact cartInv_calculateTotals _
      | simp [CartOp.isStructural] at hop
  · intro s ops hs
    induction ops generalizing s with
    | nil => exact hs
    | cons op ops ih => exact ih _ (hstep s op hs)

/-- Witness for C1 at a concrete structural operation and a concrete
invariant start state. -/
theorem cart_aggregate_invariant_witness :
    cartInv (applyOp .clearCart ⟨[], 0, 0, false⟩) ∧
    cartInv (runOps [.beginLoad] ⟨[], 0, 0, false⟩) :=
  ⟨cart_aggregate_invariant.1 ⟨[], 0, 0, false⟩ .clearCart rfl,
   cart_aggregate_invariant.2 ⟨[], 0, 0, false⟩ [.beginLoad] (by constructor <;> rfl)⟩

/-- Claim C5: for every state, `failLoad` sets `isLoading` to false and
leaves the item sequence, `amount` and `total` unchanged; after
`beginLoad` followed by `failLoad` the items, `amount` and `total` are
exactly what they were before `beginLoad`. -/
theorem failLoad_frame (s : CartState) :
    (failLoad s).isLoading = false ∧
    (failLoad s).cartItems = s.cartItems ∧
    (failLoad s).amount = s.amount ∧
    (failLoad s).total = s.total ∧
    (failLoad (beginLoad s)).cartItems = s.cartItems ∧
    (failLoad (beginLoad s)).amount = s.amount ∧
    (failLoad (beginLoad s)).total = s.total :=
  ⟨rfl, rfl, rfl, rfl, rfl, rfl, rfl⟩

/-- Claim C6: reading the state immediately after `load X` yields an item
sequence equal to `X` in the same order, with `amount` and `total`
recomputed from `X` and `isLoading` set to false. -/
theorem load_roundtrip (s : CartState) (X : List LineItem) :
    (load X s).cartItems = X ∧
    (load X s).amount = sumAmount X ∧
    (load X s).total = sumTotal X ∧
    (load X s).isLoading = false ∧
    cartInv (load X s) :=
  ⟨rfl, rfl, rfl, rfl, cartInv_calculateTotals _⟩

/-- Claim C10: on every successful fetch the `getCartItems` thunk first
dispatches `openModal` and then fulfils with the response data; on
failure it rejects with the value `"something went wrong"` and dispatches
nothing. -/
theorem getCartItems_dispatch_order :
    (∀ d : List LineItem,
      (getCartItems (Except.ok d)).head? = some (.dispatched .openModal) ∧
      (getCartItems (Except.ok d)).getLast? = some (.fulfilled d)) ∧
    (∀ e : String,
      getCartItems (Except.error e) = [.rejectedWith "something went wrong"] ∧
      (getCartItems (Except.error e)).any ThunkStep.isDispatch = false) :=
  ⟨fun _ => ⟨rfl, rfl⟩, fun _ => ⟨rfl, rfl⟩⟩

/-- Claim C9: for any two store states whose `amount` is at least one,
`CartContainer` renders the same item entries, namely the statically
imported fixture — the store's own item list never influences which
items are displayed. -/
theorem rendered_items_from_fixture (fixture : List LineItem) (s1 s2 : CartState)
    (h1 : 1 ≤ s1.amount) (h2 : 1 ≤ s2.amount) :
    (renderCartContainer fixture s1).items = (renderCartContainer fixture s2).items ∧
    (renderCartContainer fixture s1).items = fixture := by
  unfold renderCartContainer
  rw [if_neg (by omega), if_neg (by omega)]
  exact ⟨rfl, rfl⟩

/-- Witness for C9 at two concrete states with different store item
lists. -/
theorem rendered_items_from_fixture_witness :
    (renderCartContainer [⟨7, "f", 2, 1, "i"⟩] ⟨[⟨1, "x", 3, 1, "j"⟩], 1, 3, false⟩).items
      = (renderCartContainer [⟨7, "f", 2, 1, "i"⟩] ⟨[], 2, 9, true⟩).items ∧
    (renderCartContainer [⟨7, "f", 2, 1, "i"⟩] ⟨[⟨1, "x", 3, 1, "j"⟩], 1, 3, false⟩).items
      = [⟨7, "f", 2, 1, "i"⟩] :=
  rendered_items_from_fixture [⟨7, "f", 2, 1, "i"⟩] ⟨[⟨1, "x", 3, 1, "j"⟩], 1, 3, false⟩
    ⟨[], 2, 9, true⟩ (by decide) (by decide)

/-- Claim C4 (code evaluated at the failing input): the engine keeps the
total at full precision (an exact rational third survives the sum), and
the `CartContainer` in the sources interpolates the raw store total, so a
total of 25 renders as `25xaf`, not the two-decimal `25.00xaf` that the
repository documentation and the claim prescribe. -/
theorem cart_total_rendered_unformatted :
    sumTotal [⟨1, "item", (1 : ℚ)/3, 1, "img"⟩] = 1/3 ∧
    (renderCartContainer [⟨1, "item", 25, 1, "img"⟩]
        ⟨[⟨1, "item", 25, 1, "img"⟩], 1, 25, false⟩).shownTotal = some 25 ∧
    renderedTotalText 25 = some "25xaf" ∧
    twoDecimalTotalText 25 = some "25.00xaf" ∧
    renderedTotalText 25 ≠ twoDecimalTotalText 25 := by
  refine ⟨by norm_num [sumTotal], by decide, by decide, by decide, by decide⟩

/-- Counterexample to claim C2 as stated: in the documented scenario,
after `load` of the two items, `increase 1` and `decrease 2`, the total
is 30, not the claimed 35 (removing item 2 subtracts its price times
quantity, 5, from 35). -/
theorem scenario_decrease_total_not_35 :
    (decrease 2 (increase 1 (load [⟨1, "a", 10, 2, "g"⟩, ⟨2, "b", 5, 1, "h"⟩]
      ⟨[], 0, 0, false⟩))).total ≠ 35 := by
  simp [load, increase, decrease, calculateTotals, sumTotal,
    increaseItems, decreaseItems, List.filterMap_cons]
  norm_num

/-- Claim C2 as amended: starting from any state,
`load [{id 1, price 10, qty 2}, {id 2, price 5, qty 1}]` yields
`amount = 3` and `total = 25`; then `increase 1` yields `amount = 4` and
`total = 35`; then `decrease 2` removes item 2 and yields `amount = 3`
and `total = 30`; then `clearCart` yields `amount = 0`, `total = 0` and
an empty item sequence. -/
theorem scenario_load_increase_decrease_clear (s : CartState) (t1 t2 g1 g2 : String) :
    ((load [⟨1, t1, 10, 2, g1⟩, ⟨2, t2, 5, 1, g2⟩] s).amount = 3 ∧
      (load [⟨1, t1, 10, 2, g1⟩, ⟨2, t2, 5, 1, g2⟩] s).total = 25) ∧
    ((increase 1 (load [⟨1, t1, 10, 2, g1⟩, ⟨2, t2, 5, 1, g2⟩] s)).amount = 4 ∧
      (increase 1 (load [⟨1, t1, 10, 2, g1⟩, ⟨2, t2, 5, 1, g2⟩] s)).total = 35) ∧
    ((decrease 2 (increase 1 (load [⟨1, t1, 10, 2, g1⟩, ⟨2, t2, 5, 1, g2⟩] s))).cartItems
        = [⟨1, t1, 10, 3, g1⟩] ∧
      (decrease 2 (increase 1 (load [⟨1, t1, 10, 2, g1⟩, ⟨2, t2, 5, 1, g2⟩] s))).amount = 3 ∧
      (decrease 2 (increase 1 (load [⟨1, t1, 10, 2, g1⟩, ⟨2, t2, 5, 1, g2⟩] s))).total = 30) ∧
    ((clearCart (decrease 2 (increase 1 (load [⟨1, t1, 10, 2, g1⟩, ⟨2, t2, 5, 1, g2⟩] s)))).amount = 0 ∧
      (clearCart (decrease 2 (increase 1 (load [⟨1, t1, 10, 2, g1⟩, ⟨2, t2, 5, 1, g2⟩] s)))).total = 0 ∧
      (clearCart (decrease 2 (increase 1 (load [⟨1, t1, 10, 2, g1⟩, ⟨2, t2, 5, 1, g2⟩] s)))).cartItems = []) := by
  refine ⟨⟨?_, ?_⟩, ⟨?_, ?_⟩, ⟨?_, ?_, ?_⟩, ⟨?_, ?_, ?_⟩⟩ <;>
    simp [load, increase, decrease, clearCart, calculateTotals, sumAmount, sumTotal,
      increaseItems, decreaseItems, List.filterMap_cons] <;>
    norm_num

/-- Claim C7: on a state satisfying the aggregate invariant, an absent
identifier makes `removeItem`, `increase` and `decrease` return the input
state itself — a no-op, not an error. -/
theorem absent_id_noop (s : CartState) (id : Nat) (hinv : cartInv s)
    (habs : ∀ i ∈ s.cartItems, ¬ i.id = id) :
    removeItem id s = s ∧ increase id s = s ∧ decrease id s = s := by
  refine ⟨?_, ?_, ?_⟩
  · unfold removeItem
    rw [removeItems_of_absent habs]
    exact calculateTotals_of_cartInv hinv
  · unfold increase
    rw [increaseItems_of_absent habs]
    exact calculateTotals_of_cartInv hinv
  · unfold decrease
    rw [decreaseItems_of_absent habs]
    exact calculateTotals_of_cartInv hinv

/-- Witness for C7 at a concrete invariant state and a concrete absent
identifier. -/
theorem absent_id_noop_witness :
    removeItem 9 ⟨[⟨1, "a", 10, 2, "g"⟩], 2, 20, false⟩
      = ⟨[⟨1, "a", 10, 2, "g"⟩], 2, 20, false⟩ ∧
    increase 9 ⟨[⟨1, "a", 10, 2, "g"⟩], 2, 20, false⟩
      = ⟨[⟨1, "a", 10, 2, "g"⟩], 2, 20, false⟩ ∧
    decrease 9 ⟨[⟨1, "a", 10, 2, "g"⟩], 2, 20, false⟩
      = ⟨[⟨1, "a", 10, 2, "g"⟩], 2, 20, false⟩ :=
  absent_id_noop ⟨[⟨1, "a", 10, 2, "g"⟩], 2, 20, false⟩ 9
    (by constructor <;> norm_num [sumAmount, sumTotal]) (by decide)

/-- Claim C3: on a well-formed item list, `decrease id` produces the very
same state as `removeItem id` whenever the item with identifier `id` has
quantity one; it decrements the quantity by one whenever that quantity
exceeds one; and every item it leaves observable has quantity at least
one. -/
theorem decrease_semantics (s : CartState) (id : Nat) (hWF : itemsWF s.cartItems) :
    ((∃ i ∈ s.cartItems, i.id = id ∧ i.amount = 1) → decrease id s = removeItem id s) ∧
    ((∃ i ∈ s.cartItems, i.id = id ∧ 1 < i.amount) →
      (decrease id s).cartItems =
        s.cartItems.map (fun j => if j.id = id then { j with amount := j.amount - 1 } else j)) ∧
    (∀ j ∈ (decrease id s).cartItems, 1 ≤ j.amount) := by
  obtain ⟨hnd, hwf⟩ := hWF
  refine ⟨?_, ?_, ?_⟩
  · intro h
    unfold decrease removeItem
    rw [decreaseItems_eq_removeItems hnd h]
  · intro h
    show decreaseItems id s.cartItems = _
    exact decreaseItems_eq_map hnd h
  · show ∀ j ∈ decreaseItems id s.cartItems, 1 ≤ j.amount
    exact amount_pos_of_mem_decreaseItems (fun i hi => (hwf i hi).2)

/-- Witness for C3 at a concrete well-formed state holding the item with
identifier 1 at quantity one. -/
theorem decrease_semantics_witness :
    decrease 1 ⟨[⟨1, "a", 10, 1, "g"⟩], 1, 10, false⟩
      = removeItem 1 ⟨[⟨1, "a", 10, 1, "g"⟩], 1, 10, false⟩ :=
  (decrease_semantics ⟨[⟨1, "a", 10, 1, "g"⟩], 1, 10, false⟩ 1 (by decide)).1 (by decide)

/-- Claim C8: every engine operation is a total pure function of the
state in this embedding; over well-formed input — pairwise-distinct
identifiers, non-negative prices, positive integer quantities, and a
well-formed operation argument — it produces a state that is again
well-formed, so no operation ever reaches an undefined access. -/
theorem applyOp_total_wf (op : CartOp) (s : CartState)
    (hop : opWF op) (hs : itemsWF s.cartItems) :
    itemsWF (applyOp op s).cartItems := by
  cases op with
  | load items => exact hop
  | beginLoad => exact hs
  | failLoad => exact hs
  | addItem item => exact itemsWF_addItemItems hop hs
  | removeItem id => exact itemsWF_removeItems hs
  | increase id => exact itemsWF_increaseItems hs
  | decrease id => exact itemsWF_decreaseItems hs
  | clearCart => exact ⟨List.nodup_nil, by intro i hi; cases hi⟩

/-- Witness for C8 at a concrete operation and a concrete well-formed
state. -/
theorem applyOp_total_wf_witness :
    itemsWF (applyOp (.decrease 1) ⟨[⟨1, "a", 10, 2, "g"⟩], 2, 20, false⟩).cartItems :=
  applyOp_total_wf (.decrease 1) ⟨[⟨1, "a", 10, 2, "g"⟩], 2, 20, false⟩ trivial (by decide)
